import Mathlib

-- Batteries marks the arithmetic of `Rat` `@[irreducible]`; re-allow plain
-- unfolding so that concrete score computations can be settled by `decide`.
unseal Rat.mul Rat.add Rat.sub
unseal Rat.inv

/-!
# Verification of the ATS.ai scoring pipeline

Shallow embedding of the core scoring pipeline of the repository:
`backend/utils/scorer.py` (keyword matcher, LLM judge with retry/failover,
resume scorer blend), `backend/config.py` (blend weights) and
`backend/main.py` (multi-JD resolver and the batch orchestrator behind
`/api/analyze`).

Modelling conventions:
* Python floats are modelled as `ℚ`; Python's `round(x, 1)` is modelled as
  exact round-half-to-even at one decimal (`pyRound1`).
* Python `set` becomes `Finset String`; Python string containment (`in`)
  becomes an explicit substring search on character lists.
* The TF-IDF cosine similarity is an external numeric computation
  (scikit-learn); it is kept abstract as an `Option ℚ` outcome, `none`
  standing for the exception path of `_tfidf_similarity` which yields `0.0`.
* External LLM calls are modelled by an outcome function `ℕ → CallOutcome`
  per provider (attempt index to observed outcome); an exception carries the
  message string that the code classifies by substring search.
* Leading underscores of Python names are dropped (`_extract_keywords` →
  `extract_keywords`, etc.); the regex `\b[A-Z][a-zA-Z0-9+#.]*\b` used by
  `_extract_keywords` is implemented character-exactly for ASCII text
  (`techScan`), including word-boundary backtracking.
-/

namespace ATS

/-! ## Rounding: Python `round(x, 1)` on exact rationals (half-to-even) -/

/-- Round a rational to the nearest integer, ties to the even integer
(banker's rounding, as Python's builtin `round`). -/
def roundHalfEven (q : ℚ) : ℤ :=
  if q - ⌊q⌋ < 1/2 then ⌊q⌋
  else if 1/2 < q - ⌊q⌋ then ⌊q⌋ + 1
  else if ⌊q⌋ % 2 = 0 then ⌊q⌋ else ⌊q⌋ + 1

/-- Python `round(x, 1)`: one decimal digit, ties to even. -/
def pyRound1 (q : ℚ) : ℚ := (roundHalfEven (q * 10) : ℚ) / 10

/-! ## String helpers -/

/-- Test `startsWithChars ns hs`: `ns` is a prefix of `hs` (on char lists). -/
def startsWithChars : List Char → List Char → Bool
  | [], _ => true
  | _ :: _, [] => false
  | a :: as, b :: bs => a == b && startsWithChars as bs

/-- Search `subSearch ns hs`: `ns` occurs as a contiguous sublist of `hs`
(Python's `ns in hs` on strings). -/
def subSearch (ns : List Char) : List Char → Bool
  | [] => ns.isEmpty
  | b :: bs => startsWithChars ns (b :: bs) || subSearch ns bs

/-- Python `needle in hay` for strings. -/
def substrB (needle hay : String) : Bool := subSearch needle.data hay.data

/-- Python `str.lower()` (ASCII fragment, characterwise). -/
def strLower (s : String) : String := String.mk (s.data.map Char.toLower)

/-- Python `str.capitalize()`: first character uppercased, the rest
lowercased. -/
def pyCapitalize (s : String) : String :=
  match s.data with
  | [] => ""
  | c :: rest => String.mk (c.toUpper :: rest.map Char.toLower)

/-- Lexicographic (code-point) comparison of char lists, exactly how CPython
compares strings in `sorted`. -/
def lexLe : List Char → List Char → Bool
  | [], _ => true
  | _ :: _, [] => false
  | a :: as, b :: bs => if a < b then true else if b < a then false else lexLe as bs

/-- Python string `<=` by code points, Bool-valued. -/
def strLeB (a b : String) : Bool := lexLe a.data b.data

/-- Python string `<=` by code points, as a relation. -/
def strLe (a b : String) : Prop := strLeB a b = true

instance : DecidableRel strLe := fun a b => instDecidableEqBool (strLeB a b) true

/-- Comparison `lexLe` decides the (lexicographic) linear order on `List Char`. -/
theorem lexLe_iff : ∀ as bs : List Char, lexLe as bs = true ↔ ¬ bs < as := by
  intro as
  induction as with
  | nil =>
    intro bs
    constructor
    · intro _ h
      cases h
    · intro _
      simp [lexLe]
  | cons a as ih =>
    intro bs
    cases bs with
    | nil =>
      constructor
      · intro h
        simp [lexLe] at h
      · intro _
        exact absurd (List.nil_lt_cons a as) (by assumption)
    | cons b bs =>
      by_cases hab : a < b
      · constructor
        · intro _ hlt
          cases hlt with
          | cons h2 => exact lt_irrefl a hab
          | rel h2 => exact asymm hab h2
        · intro _
          simp [lexLe, hab]
      · by_cases hba : b < a
        · constructor
          · intro h
            simp [lexLe, hab, hba] at h
          · intro h
            exact absurd (List.Lex.rel hba) h
        · have hEq : a = b := le_antisymm (le_of_not_lt hba) (le_of_not_lt hab)
          subst hEq
          constructor
          · intro h hlt
            cases hlt with
            | cons h2 => exact (ih bs).mp (by simpa [lexLe, hab, hba] using h) h2
            | rel h2 => exact hba h2
          · intro h
            simp only [lexLe, if_neg hab, if_neg hba]
            exact (ih bs).mpr (fun h2 => h (List.Lex.cons h2))

/-- Relation `strLe` is the linear order `≤` on `String`. -/
theorem strLe_iff (a b : String) : strLe a b ↔ a ≤ b := by
  rw [String.le_iff_toList_le, ← not_lt]
  exact lexLe_iff a.toList b.toList

instance : IsTrans String strLe := by
  constructor
  intro a b c hab hbc
  rw [strLe_iff] at *
  exact le_trans hab hbc

instance : IsAntisymm String strLe := by
  constructor
  intro a b hab hba
  rw [strLe_iff] at *
  exact le_antisymm hab hba

instance : IsTotal String strLe := by
  constructor
  intro a b
  rw [strLe_iff, strLe_iff]
  exact le_total a b

/-- Python `sorted(list(s))` for a set of strings: the elements in
lexicographic (code-point) order. Defined on the underlying multiset; the
result does not depend on the representative because sorting two
permutations of the same elements by a total antisymmetric order yields the
same list. -/
def sortedOf (s : Finset String) : List String :=
  Quotient.liftOn s.val (fun l => l.insertionSort strLe) (fun _ _ h =>
    List.eq_of_perm_of_sorted
      (((List.perm_insertionSort strLe _).trans h).trans
        (List.perm_insertionSort strLe _).symm)
      (List.sorted_insertionSort strLe _) (List.sorted_insertionSort strLe _))

/-! ## Keyword matcher (`backend/utils/scorer.py`) -/

/-- Vocabulary `COMMON_SKILLS` from `scorer.py` (the fixed domain-skill vocabulary). -/
def COMMON_SKILLS : List String := [
  "python", "java", "javascript", "typescript", "c++", "c#", "ruby", "go",
  "php", "swift", "kotlin", "r", "scala", "rust", "react", "angular", "vue",
  "django", "flask", "fastapi", "node", "express", "sql", "mysql", "postgresql",
  "mongodb", "redis", "elasticsearch", "aws", "azure", "gcp", "docker", "kubernetes",
  "machine learning", "deep learning", "nlp", "tensorflow", "pytorch",
  "pandas", "numpy", "scikit-learn", "communication", "leadership", "agile"]

/-- ASCII uppercase letter (the regex class `[A-Z]`). -/
def isUpperAZ (c : Char) : Bool := 'A' ≤ c && c ≤ 'Z'

/-- Regex word character `\w` (ASCII fragment): letter, digit or underscore. -/
def isWordChar (c : Char) : Bool :=
  ('a' ≤ c && c ≤ 'z') || ('A' ≤ c && c ≤ 'Z') || ('0' ≤ c && c ≤ '9') || c == '_'

/-- The regex class `[a-zA-Z0-9+#.]` of `_TECH_PATTERN`. -/
def isTechClass (c : Char) : Bool :=
  ('a' ≤ c && c ≤ 'z') || ('A' ≤ c && c ≤ 'Z') || ('0' ≤ c && c ≤ '9') ||
  c == '+' || c == '#' || c == '.'

/-- Word-boundary `\b` between the last consumed character and the next
character (none at end of string): word-ness must differ. -/
def boundaryAfter (last : Char) (next : Option Char) : Bool :=
  isWordChar last != (match next with | some c => isWordChar c | none => false)

/-- Word-boundary `\b` before a word character: previous character (none at
start of string) must not be a word character. -/
def prevOk (prev : Option Char) : Bool :=
  match prev with | none => true | some c => !isWordChar c

/-- Backtracking for the trailing `\b` of `_TECH_PATTERN`: given the greedy
match in reverse, drop trailing characters until the boundary holds. Returns
the chosen match, still reversed, or `none` when no end position works. -/
def chooseEndRev : List Char → Option Char → Option (List Char)
  | [], _ => none
  | last :: revRest, next =>
      if boundaryAfter last next then some (last :: revRest)
      else chooseEndRev revRest (some last)

/-- Matching of `re.findall(_TECH_PATTERN, ...)`: scan left to right; at each position with
a `\b` before an `[A-Z]` character, take the greedy `[a-zA-Z0-9+#.]*` extent,
backtrack to a position where `\b` holds, emit the match and continue after
it (non-overlapping matches, as `findall`). `prev` is the character just
before the current position. -/
def techScan : (fuel : ℕ) → Option Char → List Char → List (List Char)
  | 0, _, _ => []
  | _ + 1, _, [] => []
  | fuel + 1, prev, c :: rest =>
    if isUpperAZ c && prevOk prev then
      let ext := rest.takeWhile isTechClass
      let after := rest.drop ext.length
      match chooseEndRev (c :: ext).reverse after.head? with
      | some (last :: revInit) =>
          ((last :: revInit).reverse) :: techScan fuel (some last) (rest.drop revInit.length)
      | some [] => techScan fuel (some c) rest
      | none => techScan fuel (some c) rest
    else techScan fuel (some c) rest

/-- All matches of `_TECH_PATTERN` in a string (`findall`). The fuel is the
string length: every step of `techScan` consumes at least one character, so
the fuel never runs out. -/
def techFindall (s : String) : List String :=
  (techScan s.data.length none s.data).map (fun l => String.mk l)

/-- Function `_extract_keywords` from `scorer.py`: skills of `COMMON_SKILLS` occurring
as substrings of the lowercased text, together with the lowercased
`_TECH_PATTERN` matches longer than 2 characters. -/
def extract_keywords (text : String) : Finset String :=
  let lower := strLower text
  (COMMON_SKILLS.filter (fun sk => substrB sk lower)).toFinset ∪
    (((techFindall text).filter (fun w => 2 < w.length)).map strLower).toFinset

/-- Function `_tfidf_similarity`: an external scikit-learn computation; the `none`
outcome is the `except` path which returns `0.0`. -/
def tfidf_similarity (outcome : Option ℚ) : ℚ := outcome.getD 0

/-- Result dictionary of `keyword_score`. -/
structure KwResult where
  score : ℚ
  matched_keywords : List String
  missing_keywords : List String
  deriving Repr, DecidableEq

/-- Function `keyword_score` from `scorer.py`. `sim_outcome` is the outcome of the
external `_tfidf_similarity` call. -/
def keyword_score (resume_text jd_text : String) (sim_outcome : Option ℚ) : KwResult :=
  let jd_keywords := extract_keywords jd_text
  let resume_keywords := extract_keywords resume_text
  let matched := jd_keywords ∩ resume_keywords
  let missing := jd_keywords \ resume_keywords
  -- Python's `if jd_keywords` truthiness test is nonemptiness of the set.
  let mr : ℚ := if jd_keywords.card = 0 then 0 else (matched.card : ℚ) / (jd_keywords.card : ℚ)
  let tfidf_sim := tfidf_similarity sim_outcome
  let combined := mr * (6/10) + tfidf_sim * (4/10)
  { score := pyRound1 (combined * 100)
    matched_keywords := sortedOf matched
    missing_keywords := (sortedOf missing).take 10 }

/-! ## LLM judge (`llm_score` in `backend/utils/scorer.py`) -/

/-- The JSON object an LLM reply parses to; every key may be absent
(`dict.get` supplies the default at each use site). -/
structure LLMJson where
  candidate_name : Option String := none
  overall_score : Option ℚ := none
  phone_number : Option String := none
  email : Option String := none
  photo_link : Option String := none
  summary : Option String := none
  missing_requirements : Option (List String) := none
  job_description_summary : Option String := none
  target_job_role : Option String := none
  best_fit_role : Option String := none
  recommendation : Option String := none
  deriving Repr, DecidableEq

/-- Outcome of one external provider call: a parsed JSON reply, or an
exception (network error, API error, or JSON parse failure) carrying the
message that `str(e)` yields. -/
inductive CallOutcome where
  | success (r : LLMJson)
  | failure (msg : String)
  deriving Repr, DecidableEq

/-- Constant `_MAX_RETRIES` from `scorer.py`: extra retries per provider. -/
def MAX_RETRIES : ℕ := 2

/-- Retryability test of the OpenAI branch:
`"rate" in err_str or "429" in err_str or "timeout" in err_str or
"overloaded" in err_str` (on the lowercased message). -/
def openaiRetryable (err_str : String) : Bool :=
  substrB "rate" err_str || substrB "429" err_str ||
    substrB "timeout" err_str || substrB "overloaded" err_str

/-- Retryability test of the Gemini branch:
`"rate" in err_str or "429" in err_str or "quota" in err_str or
"resource" in err_str` (on the lowercased message). -/
def geminiRetryable (err_str : String) : Bool :=
  substrB "rate" err_str || substrB "429" err_str ||
    substrB "quota" err_str || substrB "resource" err_str

/-- Observable trace of one provider's retry loop: the parsed result if any
attempt succeeded, the number of calls made, and the backoff waits slept
(in seconds). -/
structure ProviderRun where
  result : Option LLMJson
  calls : ℕ
  waits : List ℚ
  deriving Repr, DecidableEq

/-- One provider's `for attempt in range(_MAX_RETRIES + 1)` loop, given the
remaining attempt indices. On success, return; on a retryable failure before
the last attempt, sleep `(attempt + 1) * 1.5` and continue; otherwise break
(abandon this provider). -/
def providerLoop (retryable : String → Bool) (outcome : ℕ → CallOutcome) :
    List ℕ → ProviderRun
  | [] => { result := none, calls := 0, waits := [] }
  | attempt :: rest =>
    match outcome attempt with
    | .success r => { result := some r, calls := 1, waits := [] }
    | .failure e =>
      if retryable (strLower e) && decide (attempt < MAX_RETRIES) then
        let sub := providerLoop retryable outcome rest
        { result := sub.result, calls := sub.calls + 1,
          waits := ((attempt : ℚ) + 1) * (3/2) :: sub.waits }
      else
        { result := none, calls := 1, waits := [] }

/-- A full retry loop of one provider (attempts `0, 1, …, MAX_RETRIES`). -/
def runProvider (retryable : String → Bool) (outcome : ℕ → CallOutcome) : ProviderRun :=
  providerLoop retryable outcome (List.range (MAX_RETRIES + 1))

/-- Observable trace of `llm_score`: the result (tagged with the provider
name the code writes into `llm_provider`) and each provider's call counts
and waits. -/
structure LLMTrace where
  result : Option (LLMJson × String)
  openaiCalls : ℕ
  openaiWaits : List ℚ
  geminiCalls : ℕ
  geminiWaits : List ℚ
  deriving Repr, DecidableEq

/-- The Gemini fallback block of `llm_score` (runs after the OpenAI block
produced nothing); `r1` is the OpenAI block's run trace. -/
def geminiBlock (gemini_key : String) (geminiOutcome : ℕ → CallOutcome)
    (r1 : ProviderRun) : LLMTrace :=
  if gemini_key ≠ "" then
    let r2 := runProvider geminiRetryable geminiOutcome
    match r2.result with
    | some r => { result := some (r, "Gemini"), openaiCalls := r1.calls,
                  openaiWaits := r1.waits, geminiCalls := r2.calls, geminiWaits := r2.waits }
    | none => { result := none, openaiCalls := r1.calls, openaiWaits := r1.waits,
                geminiCalls := r2.calls, geminiWaits := r2.waits }
  else
    { result := none, openaiCalls := r1.calls, openaiWaits := r1.waits,
      geminiCalls := 0, geminiWaits := [] }

/-- Function `llm_score` from `scorer.py`: OpenAI first when its key is truthy, then
Gemini when its key is truthy; each with the bounded retry loop; `None` when
both fail or neither is configured. `openaiOutcome`/`geminiOutcome` are the
observed behaviors of the external calls by attempt index. -/
def llm_score (openai_key gemini_key : String)
    (openaiOutcome geminiOutcome : ℕ → CallOutcome) : LLMTrace :=
  if openai_key ≠ "" then
    let r1 := runProvider openaiRetryable openaiOutcome
    match r1.result with
    | some r => { result := some (r, "GPT"), openaiCalls := r1.calls,
                  openaiWaits := r1.waits, geminiCalls := 0, geminiWaits := [] }
    | none => geminiBlock gemini_key geminiOutcome r1
  else
    geminiBlock gemini_key geminiOutcome { result := none, calls := 0, waits := [] }

/-! ## Resume scorer (`score_resume` in `backend/utils/scorer.py`) -/

/-- Constant `LLM_WEIGHT` from `backend/config.py`. -/
def LLM_WEIGHT : ℚ := 7/10

/-- Constant `KEYWORD_WEIGHT` from `backend/config.py`. -/
def KEYWORD_WEIGHT : ℚ := 3/10

/-- The dictionary `score_resume` returns. `nameExtracted` is `none` when
the `"Candidate Name Extracted"` key is absent (keyword-only branch). -/
structure ScoreRecord where
  ats : ℚ
  phone : String
  email : String
  photoLink : String
  summary : String
  missingReq : String
  jdSummary : String
  targetRole : String
  bestFitRole : String
  recommendation : String
  status : String
  nameExtracted : Option String
  deriving Repr, DecidableEq

/-- Function `score_resume` from `scorer.py`. The keyword and LLM computations run in
parallel in the code and are joined before blending; the join is modelled by
plain evaluation of both. -/
def score_resume (resume_text jd_text : String) (sim_outcome : Option ℚ)
    (openai_key gemini_key : String)
    (openaiOutcome geminiOutcome : ℕ → CallOutcome) : ScoreRecord :=
  let kw_result := keyword_score resume_text jd_text sim_outcome
  let llm_result := (llm_score openai_key gemini_key openaiOutcome geminiOutcome).result
  match llm_result with
  | some (r, provider) =>
    let final := pyRound1 ((r.overall_score.getD 0) * LLM_WEIGHT + kw_result.score * KEYWORD_WEIGHT)
    let r0 := pyCapitalize (r.recommendation.getD "Maybe")
    let r1 := if r0 = "Yes" ∨ r0 = "No" ∨ r0 = "Maybe" then r0 else "Maybe"
    { ats := final
      phone := r.phone_number.getD "Not Found"
      email := r.email.getD "Not Found"
      photoLink := r.photo_link.getD "Not Found"
      summary := r.summary.getD ""
      missingReq := String.intercalate ", " (r.missing_requirements.getD [])
      jdSummary := r.job_description_summary.getD ""
      targetRole := r.target_job_role.getD ""
      bestFitRole := r.best_fit_role.getD ""
      recommendation := r1
      status := provider
      nameExtracted := some (r.candidate_name.getD "") }
  | none =>
    { ats := kw_result.score
      phone := "Not Found"
      email := "Not Found"
      photoLink := "Not Found"
      summary := "LLMs failed or keys missing. Scored via keywords only."
      missingReq := String.intercalate ", " kw_result.missing_keywords
      jdSummary := "Not Found"
      targetRole := "Not Found"
      bestFitRole := "Not Found"
      recommendation := "Maybe"
      status := "Keyword"
      nameExtracted := none }

/-! ## Multi-JD resolver (`_score_against_all_jds` in `backend/main.py`) -/

/-- The per-call environment of one `score_resume` invocation: the outcome
of the TF-IDF computation and the observed behaviors of the two external
providers for that call. -/
structure ScoreEnv where
  sim : Option ℚ
  openaiOutcome : ℕ → CallOutcome
  geminiOutcome : ℕ → CallOutcome

/-- One `score_resume(resume_text, jd, oai_key, gem_key)` call inside the
resolver; `env` assigns each JD text the environment of its call. -/
def scoreOne (resume_text : String) (oai_key gem_key : String)
    (env : String → ScoreEnv) (jd : String) : ScoreRecord :=
  score_resume resume_text jd (env jd).sim oai_key gem_key
    (env jd).openaiOutcome (env jd).geminiOutcome

/-- The resolver's output: the winning `score_resume` dictionary plus the
`"Matched JD"` key it adds. -/
structure JDMatch where
  data : ScoreRecord
  matchedJD : String
  deriving Repr, DecidableEq

/-- Loop state step of the multi-JD branch: `best_score` starts at `-1`,
`best_data` at `None`; each JD's record replaces the best exactly when its
ATS score is strictly greater (`score_data.get("ATS Score", 0) or 0` is the
record's score — the key is always present, and `or 0` is the identity on a
number). -/
def bestStep (acc : ℚ × Option ScoreRecord) (d : ScoreRecord) : ℚ × Option ScoreRecord :=
  if acc.1 < d.ats then (d.ats, some d) else acc

/-- Function `_score_against_all_jds` from `backend/main.py`. Returns `none` only on
the uncaught `jd_texts[0]` index error of the empty-list fallback (callers
guarantee a non-empty list). The `"Matched JD"` defaults `"Single JD"` and
`"N/A"` of `dict.get` are unreachable because `score_resume` always sets
`"Target Job Role"`. -/
def score_against_all_jds (resume_text : String) (jd_texts : List String)
    (oai_key gem_key : String) (env : String → ScoreEnv) : Option JDMatch :=
  let sr := scoreOne resume_text oai_key gem_key env
  match jd_texts with
  | [jd] =>
    let score_data := sr jd
    some { data := score_data, matchedJD := score_data.targetRole }
  | _ =>
    let out := jd_texts.foldl (fun acc jd => bestStep acc (sr jd)) (-1, none)
    match out.2 with
    | some best_data => some { data := best_data, matchedJD := best_data.targetRole }
    | none =>
      match jd_texts with
      | [] => none
      | jd0 :: _ =>
        let best_data := sr jd0
        some { data := best_data, matchedJD := best_data.targetRole }

/-! ## Batch orchestrator (`/api/analyze` in `backend/main.py`) -/

/-- One row of the candidate spreadsheet after column detection:
`(name, url, photo)`, where `photo` is the stripped string of the photo
column or `""`. -/
structure Candidate where
  name : String
  url : String
  photo : String
  deriving Repr, DecidableEq

/-- How one candidate's acquisition pipeline behaves: `download_resume`
returning a falsy path, `extract_text` returning falsy text, or successful
extraction of `resume_text`. -/
inductive Acquisition where
  | downloadFail
  | extractFail
  | ok (resume_text : String)
  deriving Repr, DecidableEq

/-- One entry of the aggregated results: the worker dictionary minus its
`"_ok"` key. -/
structure CandidateResult where
  name : String
  link : String
  ats : ℚ
  status : String
  phone : String
  email : String
  photoLink : String
  summary : String
  missingReq : String
  jdSummary : String
  targetRole : String
  bestFitRole : String
  matchedJD : String
  recommendation : String
  nameExtracted : Option String
  deriving Repr, DecidableEq

/-- The failure dictionary of `_process_one_candidate`'s `except` branch. -/
def failedRecord (name url msg : String) : CandidateResult :=
  { name := name
    link := url
    ats := 0
    status := "Failed"
    phone := "Error"
    email := "Error"
    photoLink := "Error"
    summary := "Failed: " ++ msg
    missingReq := "Error"
    jdSummary := "Error"
    targetRole := "Error"
    bestFitRole := "Error"
    matchedJD := "Error"
    recommendation := "No"
    nameExtracted := none }

/-- The success dictionary of `_process_one_candidate`: candidate identity
merged with the resolver's record. -/
def successRecord (name url : String) (m : JDMatch) : CandidateResult :=
  { name := name
    link := url
    ats := m.data.ats
    status := m.data.status
    phone := m.data.phone
    email := m.data.email
    photoLink := m.data.photoLink
    summary := m.data.summary
    missingReq := m.data.missingReq
    jdSummary := m.data.jdSummary
    targetRole := m.data.targetRole
    bestFitRole := m.data.bestFitRole
    matchedJD := m.matchedJD
    recommendation := m.data.recommendation
    nameExtracted := m.data.nameExtracted }

/-- Function `_process_one_candidate` from `backend/main.py`: download, extract and
score one resume; every exception is converted into the failure record. The
Boolean is the `"_ok"` flag. An empty `jd_texts` list surfaces as the Python
`IndexError` message of `jd_texts[0]`, also caught by the `except`. -/
def process_one_candidate (c : Candidate) (acq : Acquisition)
    (jd_texts : List String) (oai_key gem_key : String)
    (env : String → ScoreEnv) : CandidateResult × Bool :=
  match acq with
  | .downloadFail => (failedRecord c.name c.url "Failed to download resume file.", false)
  | .extractFail =>
      (failedRecord c.name c.url "No text could be extracted (possibly a scanned image).", false)
  | .ok resume_text =>
    match score_against_all_jds resume_text jd_texts oai_key gem_key env with
    | some m => (successRecord c.name c.url m, true)
    | none => (failedRecord c.name c.url "list index out of range", false)

/-- Constant `BATCH_SIZE` from `backend/main.py`. -/
def BATCH_SIZE : ℕ := 15

/-- Slicing as in `candidates[batch_start : batch_start + BATCH_SIZE]`. The fuel
is the list length: with a positive chunk size every step consumes at least
one element, so the fuel never runs out. -/
def chunksOf (n : ℕ) : (fuel : ℕ) → List α → List (List α)
  | 0, _ => []
  | _ + 1, [] => []
  | fuel + 1, x :: xs => (x :: xs).take n :: chunksOf n fuel ((x :: xs).drop n)

/-- The typed events of the SSE stream. -/
inductive Event where
  | progress (current total : ℕ) (candidate : String)
  | result (current total : ℕ) (candidate : String) (score : ℚ) (status : String)
      (data : CandidateResult)
  | done (total : ℕ) (results : List CandidateResult)
  deriving Repr, DecidableEq

/-- The spreadsheet photo injection applied to each worker record before it
is appended and emitted: if the sheet value is truthy and not one of the
`"nan"`, `"None"`, `""` literals, it replaces `"Photo Link"`. -/
def injectPhoto (c : Candidate) (r : CandidateResult) : CandidateResult :=
  if c.photo ≠ "" ∧ c.photo ≠ "nan" ∧ c.photo ≠ "None" then
    { r with photoLink := c.photo }
  else r

/-- The `"processing"` notifications emitted for a batch, in input order,
before the batch is dispatched; `completed` is the running counter. -/
def progressEvents (total completed : ℕ) : List Candidate → List Event
  | [] => []
  | c :: rest => .progress (completed + 1) total c.name :: progressEvents total (completed + 1) rest

/-- Emission of one batch's gathered results (`asyncio.gather` returns them
in the order the workers were submitted, i.e. the batch's input order): each
record gets the photo injection, is appended to `results`, and yields a
`"result"` event with `current = len(results)`. Returns the events and the
grown results list. -/
def emitBatch (total : ℕ) :
    List (Candidate × (CandidateResult × Bool)) → List CandidateResult →
    List Event × List CandidateResult
  | [], results => ([], results)
  | (c, (r0, ok)) :: rest, results =>
    let r1 := injectPhoto c r0
    let results1 := results ++ [r1]
    let ev : Event := .result results1.length total r1.name r1.ats
      (if ok then "complete" else "failed") r1
    let out := emitBatch total rest results1
    (ev :: out.1, out.2)

/-- The batch loop of `event_stream`: per batch, all `"processing"` events,
then the gathered `"result"` events; after the last batch, the `"done"`
event carrying the aggregated results. -/
def streamGo (total : ℕ) (worker : Candidate → CandidateResult × Bool)
    (completed : ℕ) (results : List CandidateResult) :
    List (List Candidate) → List Event
  | [] => [.done total results]
  | batch :: rest =>
    let pevs := progressEvents total completed batch
    let gathered := batch.map (fun c => (c, worker c))
    let out := emitBatch total gathered results
    pevs ++ out.1 ++ streamGo total worker (completed + batch.length) out.2 rest

/-- The `event_stream` generator of `/api/analyze`, parameterized by the
worker the orchestrator dispatches (`_process_one_candidate` with the
request's JDs and keys). -/
def event_stream (cands : List Candidate) (worker : Candidate → CandidateResult × Bool) :
    List Event :=
  streamGo cands.length worker 0 [] (chunksOf BATCH_SIZE cands.length cands)

/-- The `data` payloads of the `"result"` events of a stream, in emission
order. -/
def resultDataOf (evs : List Event) : List CandidateResult :=
  evs.filterMap fun e =>
    match e with
    | .result _ _ _ _ _ data => some data
    | _ => none

/-- The aggregated results of the final `"done"` event. -/
def doneResultsOf (evs : List Event) : List CandidateResult :=
  (evs.filterMap fun e =>
    match e with
    | .done _ results => some results
    | _ => none).flatten

/-! ## Spec-side definitions used to compare claims against the code -/

/-- Modelled from the spec (§4.2): "classify an error as retryable if its
message indicates rate-limiting, timeout, quota, or overload" — one uniform
classifier whose needles are the union of what the two provider branches
use. -/
def specRetryable (err_str : String) : Bool :=
  substrB "rate" err_str || substrB "429" err_str || substrB "timeout" err_str ||
    substrB "overloaded" err_str || substrB "quota" err_str || substrB "resource" err_str

/-- Modelled from the spec (§4.5): "the batch's completion order" — the
candidates ordered by the instant `ct` at which their worker completes. -/
def completionSort (ct : Candidate → ℕ) (batch : List Candidate) : List Candidate :=
  batch.insertionSort (fun a b => ct a ≤ ct b)

/-! ## Concrete fixtures used by witnesses and counterexamples -/

/-- A job description whose 11 extracted keywords exceed the truncation cap. -/
def exJD11 : String := "Aaa Bbb Ccc Ddd Eee Fff Ggg Hhh Iii Jjj Kkk"

/-- A well-formed parsed LLM reply with overall score 80. -/
def exJson : LLMJson :=
  { overall_score := some 80, recommendation := some "yes", target_job_role := some "Role A" }

/-- A provider that replies successfully on every attempt. -/
def exOkB : ℕ → CallOutcome := fun _ => .success exJson

/-- A provider that fails every attempt with a retryable (rate-limit)
message. -/
def exFailB : ℕ → CallOutcome := fun _ => .failure "Rate limit: 429"

/-- A parsed LLM reply whose overall score escapes the prompt's 0-100
range. -/
def exHugeJson : LLMJson := { overall_score := some 200 }

/-- A provider returning the out-of-range reply. -/
def exHugeB : ℕ → CallOutcome := fun _ => .success exHugeJson

/-- Per-JD environments mocking ATS scores 40 / 85 / 60 for three JDs (the
keyword side scores 0 on these texts, so the blend is 0.7 times the mocked
LLM score). -/
def exEnv3 : String → ScoreEnv := fun jd =>
  { sim := none
    openaiOutcome := fun _ => .success
      { overall_score := some (if jd = "j1" then 400/7 else if jd = "j2" then 850/7 else 600/7)
        target_job_role := some ("Role " ++ jd) }
    geminiOutcome := exFailB }

/-- An environment with no usable LLM (keyword-only scoring). -/
def exEnvK : String → ScoreEnv := fun _ => { sim := none, openaiOutcome := exFailB, geminiOutcome := exFailB }

/-- Two candidates for the ordering counterexample. -/
def exCandA : Candidate := { name := "A", url := "uA", photo := "" }

/-- Second candidate of the ordering counterexample. -/
def exCandB : Candidate := { name := "B", url := "uB", photo := "" }

/-- Completion times where candidate B finishes before candidate A. -/
def exCt : Candidate → ℕ := fun c => if c.name = "A" then 2 else 1

/-- A worker whose records are immaterial to ordering facts. -/
def exWorkerF : Candidate → CandidateResult × Bool :=
  fun c => (failedRecord c.name c.url "boom", false)

/-- Five candidates for the batch-isolation example. -/
def exCands5 : List Candidate :=
  [ { name := "C1", url := "u1", photo := "" }
  , { name := "C2", url := "u2", photo := "" }
  , { name := "C3", url := "u3", photo := "" }
  , { name := "C4", url := "u4", photo := "" }
  , { name := "C5", url := "u5", photo := "" } ]

/-- Acquisition behavior where exactly candidate C3's download always
fails. -/
def exAcq5 : Candidate → Acquisition :=
  fun c => if c.name = "C3" then .downloadFail else .ok "Text"

/-- A provider that fails every attempt with a non-retryable message. -/
def exNonRetryB : ℕ → CallOutcome := fun _ => .failure "Invalid API key"

/-! ## Supporting lemmas -/

theorem roundHalfEven_ge (q : ℚ) : q - 1/2 ≤ (roundHalfEven q : ℚ) := by
  have h0 : ((⌊q⌋ : ℤ) : ℚ) ≤ q := Int.floor_le q
  have h1 : q < (⌊q⌋ : ℚ) + 1 := Int.lt_floor_add_one q
  unfold roundHalfEven
  split_ifs with hA hB hC <;> push_cast <;> linarith

theorem roundHalfEven_le (q : ℚ) : (roundHalfEven q : ℚ) ≤ q + 1/2 := by
  have h0 : ((⌊q⌋ : ℤ) : ℚ) ≤ q := Int.floor_le q
  have h1 : q < (⌊q⌋ : ℚ) + 1 := Int.lt_floor_add_one q
  unfold roundHalfEven
  split_ifs with hA hB hC <;> push_cast <;> linarith

theorem pyRound1_nonneg {q : ℚ} (h : 0 ≤ q) : 0 ≤ pyRound1 q := by
  have hg := roundHalfEven_ge (q * 10)
  have h1 : (-1 : ℚ) < (roundHalfEven (q * 10) : ℚ) := by linarith
  have h2 : (-1 : ℤ) < roundHalfEven (q * 10) := by exact_mod_cast h1
  have h3 : (0 : ℚ) ≤ (roundHalfEven (q * 10) : ℚ) := by
    have : (0 : ℤ) ≤ roundHalfEven (q * 10) := by omega
    exact_mod_cast this
  unfold pyRound1
  linarith

theorem pyRound1_le_hundred {q : ℚ} (h : q ≤ 100) : pyRound1 q ≤ 100 := by
  have hl := roundHalfEven_le (q * 10)
  have h1 : (roundHalfEven (q * 10) : ℚ) < 1001 := by linarith
  have h2 : roundHalfEven (q * 10) < (1001 : ℤ) := by exact_mod_cast h1
  have h3 : (roundHalfEven (q * 10) : ℚ) ≤ 1000 := by
    have : roundHalfEven (q * 10) ≤ (1000 : ℤ) := by omega
    exact_mod_cast this
  unfold pyRound1
  linarith

theorem mem_sortedOf {s : Finset String} {a : String} : a ∈ sortedOf s ↔ a ∈ s := by
  obtain ⟨val, nd⟩ := s
  revert nd
  refine Quotient.inductionOn val ?_
  intro l nd
  show a ∈ List.insertionSort strLe l ↔ _
  rw [List.Perm.mem_iff (List.perm_insertionSort strLe l)]
  exact Iff.rfl

theorem length_sortedOf (s : Finset String) : (sortedOf s).length = s.card := by
  obtain ⟨val, nd⟩ := s
  revert nd
  refine Quotient.inductionOn val ?_
  intro l nd
  show (List.insertionSort strLe l).length = _
  rw [(List.perm_insertionSort strLe l).length_eq]
  rfl

theorem toFinset_sortedOf (s : Finset String) : (sortedOf s).toFinset = s := by
  ext a
  rw [List.mem_toFinset, mem_sortedOf]

theorem tfidf_similarity_bounds (so : Option ℚ)
    (hsim : ∀ s, so = some s → 0 ≤ s ∧ s ≤ 1) :
    0 ≤ tfidf_similarity so ∧ tfidf_similarity so ≤ 1 := by
  cases so with
  | none => simp [tfidf_similarity]
  | some s => simpa [tfidf_similarity] using hsim s rfl

theorem keyword_score_bounds (resume jd : String) (so : Option ℚ)
    (hsim : ∀ s, so = some s → 0 ≤ s ∧ s ≤ 1) :
    0 ≤ (keyword_score resume jd so).score ∧ (keyword_score resume jd so).score ≤ 100 := by
  obtain ⟨hs0, hs1⟩ := tfidf_similarity_bounds so hsim
  have hmr : 0 ≤ (if (extract_keywords jd).card = 0 then (0:ℚ)
        else ((extract_keywords jd ∩ extract_keywords resume).card : ℚ) / ((extract_keywords jd).card : ℚ)) ∧
      (if (extract_keywords jd).card = 0 then (0:ℚ)
        else ((extract_keywords jd ∩ extract_keywords resume).card : ℚ) / ((extract_keywords jd).card : ℚ)) ≤ 1 := by
    split_ifs with hJ
    · norm_num
    · have hpos : (0 : ℚ) < ((extract_keywords jd).card : ℚ) := by
        exact_mod_cast Nat.pos_of_ne_zero hJ
      constructor
      · positivity
      · rw [div_le_one hpos]
        exact_mod_cast Finset.card_le_card Finset.inter_subset_left
  simp only [keyword_score]
  constructor
  · apply pyRound1_nonneg
    nlinarith [hmr.1, hmr.2, hs0, hs1]
  · apply pyRound1_le_hundred
    nlinarith [hmr.1, hmr.2, hs0, hs1]

theorem geminiBlock_result (gk : String) (gB : ℕ → CallOutcome) (r1 : ProviderRun) :
    (geminiBlock gk gB r1).result = none ∨
    ∃ r, (geminiBlock gk gB r1).result = some (r, "Gemini") := by
  unfold geminiBlock
  split_ifs with h
  · cases hr : (runProvider geminiRetryable gB).result with
    | none => left; simp [hr]
    | some r => right; exact ⟨r, by simp [hr]⟩
  · left; rfl

theorem llm_score_result_cases (ok gk : String) (oB gB : ℕ → CallOutcome) :
    (llm_score ok gk oB gB).result = none ∨
    (∃ r, (llm_score ok gk oB gB).result = some (r, "GPT")) ∨
    (∃ r, (llm_score ok gk oB gB).result = some (r, "Gemini")) := by
  unfold llm_score
  split_ifs with h
  · cases hr : (runProvider openaiRetryable oB).result with
    | some r => right; left; exact ⟨r, by simp [hr]⟩
    | none =>
      simp only [hr]
      rcases geminiBlock_result gk gB (runProvider openaiRetryable oB) with h2 | ⟨r, h2⟩
      · left; exact h2
      · right; right; exact ⟨r, h2⟩
  · rcases geminiBlock_result gk gB { result := none, calls := 0, waits := [] } with h2 | ⟨r, h2⟩
    · left; exact h2
    · right; right; exact ⟨r, h2⟩

theorem score_resume_status (resume jd : String) (so : Option ℚ) (ok gk : String)
    (oB gB : ℕ → CallOutcome) :
    (score_resume resume jd so ok gk oB gB).status = "GPT" ∨
    (score_resume resume jd so ok gk oB gB).status = "Gemini" ∨
    (score_resume resume jd so ok gk oB gB).status = "Keyword" := by
  rcases llm_score_result_cases ok gk oB gB with h | ⟨r, h⟩ | ⟨r, h⟩ <;>
    simp [score_resume, h]

theorem score_resume_recommendation (resume jd : String) (so : Option ℚ) (ok gk : String)
    (oB gB : ℕ → CallOutcome) :
    (score_resume resume jd so ok gk oB gB).recommendation = "Yes" ∨
    (score_resume resume jd so ok gk oB gB).recommendation = "No" ∨
    (score_resume resume jd so ok gk oB gB).recommendation = "Maybe" := by
  rcases llm_score_result_cases ok gk oB gB with h | ⟨r, h⟩ | ⟨r, h⟩
  · simp [score_resume, h]
  all_goals
    simp only [score_resume, h]
    split_ifs with hc
    · exact hc
    · simp

theorem runProvider_exhaust (retry : String → Bool) (B : ℕ → CallOutcome)
    (hfail : ∀ n, ∃ m, B n = .failure m ∧ retry (strLower m) = true) :
    runProvider retry B = { result := none, calls := 3, waits := [3/2, 3] } := by
  obtain ⟨m0, e0, r0⟩ := hfail 0
  obtain ⟨m1, e1, r1⟩ := hfail 1
  obtain ⟨m2, e2, r2⟩ := hfail 2
  have hrange : List.range (MAX_RETRIES + 1) = [0, 1, 2] := rfl
  rw [runProvider, hrange]
  simp only [providerLoop, e0, e1, e2, r0, r1, r2, MAX_RETRIES]
  norm_num

theorem bestFold_spec : ∀ (recs : List ScoreRecord) (b : ℚ) (cur : Option ScoreRecord),
    ((∀ d ∈ recs, d.ats ≤ b) ∧ recs.foldl bestStep (b, cur) = (b, cur)) ∨
    (∃ i, ∃ hi : i < recs.length,
      (recs.foldl bestStep (b, cur)).2 = some (recs.get ⟨i, hi⟩) ∧
      (recs.foldl bestStep (b, cur)).1 = (recs.get ⟨i, hi⟩).ats ∧
      b < (recs.get ⟨i, hi⟩).ats ∧
      (∀ j, ∀ hj : j < recs.length, (recs.get ⟨j, hj⟩).ats ≤ (recs.get ⟨i, hi⟩).ats) ∧
      (∀ j, ∀ hj : j < recs.length, j < i → (recs.get ⟨j, hj⟩).ats < (recs.get ⟨i, hi⟩).ats)) := by
  intro recs
  induction recs with
  | nil =>
    intro b cur
    left
    exact ⟨by simp, rfl⟩
  | cons d rest ih =>
    intro b cur
    by_cases hd : b < d.ats
    · have hstep : bestStep (b, cur) d = (d.ats, some d) := by simp [bestStep, hd]
      have hfold : (d :: rest).foldl bestStep (b, cur) = rest.foldl bestStep (d.ats, some d) := by
        rw [List.foldl_cons, hstep]
      rcases ih d.ats (some d) with ⟨hall, heq⟩ | ⟨i, hi, h1, h2, h3, h4, h5⟩
      · right
        refine ⟨0, by simp, ?_, ?_, by simpa using hd, ?_, ?_⟩
        · rw [hfold, heq]
          rfl
        · rw [hfold, heq]
          rfl
        · intro j hj
          cases j with
          | zero => simp
          | succ j2 =>
            have hj2 : j2 < rest.length := by simpa using hj
            simpa using hall (rest.get ⟨j2, hj2⟩) (rest.get_mem _ _)
        · intro j hj hj0
          omega
      · right
        have hilen : i + 1 < (d :: rest).length := by simpa using Nat.succ_lt_succ hi
        have hget : (d :: rest).get ⟨i + 1, hilen⟩ = rest.get ⟨i, hi⟩ := rfl
        refine ⟨i + 1, hilen, ?_, ?_, lt_trans hd h3, ?_, ?_⟩
        · rw [hfold, hget]
          exact h1
        · rw [hfold, hget]
          exact h2
        · intro j hj
          cases j with
          | zero =>
            rw [hget]
            exact le_of_lt h3
          | succ j2 =>
            have hj2 : j2 < rest.length := by simpa using hj
            rw [hget]
            exact h4 j2 hj2
        · intro j hj hlt
          cases j with
          | zero =>
            rw [hget]
            exact h3
          | succ j2 =>
            have hj2 : j2 < rest.length := by simpa using hj
            rw [hget]
            exact h5 j2 hj2 (by omega)
    · have hstep : bestStep (b, cur) d = (b, cur) := by simp [bestStep, hd]
      have hfold : (d :: rest).foldl bestStep (b, cur) = rest.foldl bestStep (b, cur) := by
        rw [List.foldl_cons, hstep]
      rcases ih b cur with ⟨hall, heq⟩ | ⟨i, hi, h1, h2, h3, h4, h5⟩
      · left
        constructor
        · intro x hx
          rcases List.mem_cons.mp hx with h9 | hx2
          · rw [h9]
            exact le_of_not_lt hd
          · exact hall x hx2
        · rw [hfold, heq]
      · right
        have hilen : i + 1 < (d :: rest).length := by simpa using Nat.succ_lt_succ hi
        have hget : (d :: rest).get ⟨i + 1, hilen⟩ = rest.get ⟨i, hi⟩ := rfl
        refine ⟨i + 1, hilen, ?_, ?_, ?_, ?_, ?_⟩
        · rw [hfold, hget]
          exact h1
        · rw [hfold, hget]
          exact h2
        · rw [hget]
          exact h3
        · intro j hj
          cases j with
          | zero =>
            rw [hget]
            exact le_trans (le_of_not_lt hd) (le_of_lt h3)
          | succ j2 =>
            have hj2 : j2 < rest.length := by simpa using hj
            rw [hget]
            exact h4 j2 hj2
        · intro j hj hlt
          cases j with
          | zero =>
            rw [hget]
            exact lt_of_le_of_lt (le_of_not_lt hd) h3
          | succ j2 =>
            have hj2 : j2 < rest.length := by simpa using hj
            rw [hget]
            exact h5 j2 hj2 (by omega)

theorem bestFold_mem : ∀ (recs : List ScoreRecord) (b : ℚ) (cur : Option ScoreRecord)
    (d : ScoreRecord), (recs.foldl bestStep (b, cur)).2 = some d → d ∈ recs ∨ cur = some d := by
  intro recs
  induction recs with
  | nil =>
    intro b cur d h
    right
    exact h
  | cons e rest ih =>
    intro b cur d h
    rw [List.foldl_cons] at h
    by_cases he : b < e.ats
    · rw [show bestStep (b, cur) e = (e.ats, some e) from by simp [bestStep, he]] at h
      rcases ih e.ats (some e) d h with h2 | h2
      · exact Or.inl (List.mem_cons_of_mem e h2)
      · exact Or.inl (by simp [Option.some_inj.mp h2.symm])
    · rw [show bestStep (b, cur) e = (b, cur) from by simp [bestStep, he]] at h
      rcases ih b cur d h with h2 | h2
      · exact Or.inl (List.mem_cons_of_mem e h2)
      · exact Or.inr h2

theorem score_against_all_jds_multi (resume : String) (a b : String) (rest : List String)
    (ok gk : String) (env : String → ScoreEnv) :
    score_against_all_jds resume (a :: b :: rest) ok gk env =
      match (((a :: b :: rest).map (scoreOne resume ok gk env)).foldl bestStep
          ((-1 : ℚ), (none : Option ScoreRecord))).2 with
      | some best => some { data := best, matchedJD := best.targetRole }
      | none => some { data := scoreOne resume ok gk env a,
                       matchedJD := (scoreOne resume ok gk env a).targetRole } := by
  rw [List.foldl_map]
  rfl

theorem score_against_all_jds_isSome (resume : String) (jds : List String)
    (ok gk : String) (env : String → ScoreEnv) (h : jds ≠ []) :
    ∃ m, score_against_all_jds resume jds ok gk env = some m := by
  match jds with
  | [] => exact absurd rfl h
  | [jd] => exact ⟨_, rfl⟩
  | a :: b :: rest =>
    rw [score_against_all_jds_multi]
    cases hout : (((a :: b :: rest).map (scoreOne resume ok gk env)).foldl bestStep
        ((-1 : ℚ), (none : Option ScoreRecord))).2 with
    | some best => exact ⟨_, rfl⟩
    | none => exact ⟨_, rfl⟩

theorem score_against_all_jds_data (resume : String) (jds : List String)
    (ok gk : String) (env : String → ScoreEnv) (m : JDMatch)
    (h : score_against_all_jds resume jds ok gk env = some m) :
    ∃ jd ∈ jds, m.data = scoreOne resume ok gk env jd := by
  match jds with
  | [] => exact absurd h (by simp [score_against_all_jds])
  | [jd] =>
    refine ⟨jd, by simp, ?_⟩
    unfold score_against_all_jds at h
    simp only [Option.some_inj] at h
    rw [← h]
  | a :: b :: rest =>
    rw [score_against_all_jds_multi] at h
    cases hout : (((a :: b :: rest).map (scoreOne resume ok gk env)).foldl bestStep
        ((-1 : ℚ), (none : Option ScoreRecord))).2 with
    | some best =>
      rw [hout] at h
      simp only [Option.some_inj] at h
      rcases bestFold_mem _ _ _ _ hout with hmem | hcur
      · rcases List.mem_map.mp hmem with ⟨jd, hjd, hbest⟩
        exact ⟨jd, hjd, by rw [← h, ← hbest]⟩
      · exact absurd hcur (by simp)
    | none =>
      rw [hout] at h
      simp only [Option.some_inj] at h
      exact ⟨a, by simp, by rw [← h]⟩

theorem injectPhoto_ats (c : Candidate) (r : CandidateResult) : (injectPhoto c r).ats = r.ats := by
  unfold injectPhoto
  split_ifs <;> rfl

theorem injectPhoto_status (c : Candidate) (r : CandidateResult) :
    (injectPhoto c r).status = r.status := by
  unfold injectPhoto
  split_ifs <;> rfl

theorem resultDataOf_progress (total completed : ℕ) :
    ∀ batch : List Candidate, resultDataOf (progressEvents total completed batch) = [] := by
  intro batch
  induction batch generalizing completed with
  | nil => rfl
  | cons c rest ih => simpa [progressEvents, resultDataOf] using ih (completed + 1)

theorem doneResultsOf_progress (total completed : ℕ) :
    ∀ batch : List Candidate, doneResultsOf (progressEvents total completed batch) = [] := by
  intro batch
  induction batch generalizing completed with
  | nil => rfl
  | cons c rest ih => simpa [progressEvents, doneResultsOf] using ih (completed + 1)

theorem emitBatch_spec (total : ℕ) :
    ∀ (pairs : List (Candidate × (CandidateResult × Bool))) (results : List CandidateResult),
      resultDataOf (emitBatch total pairs results).1
          = pairs.map (fun p => injectPhoto p.1 p.2.1) ∧
        (emitBatch total pairs results).2 = results ++ pairs.map (fun p => injectPhoto p.1 p.2.1) ∧
        doneResultsOf (emitBatch total pairs results).1 = [] := by
  intro pairs
  induction pairs with
  | nil =>
    intro results
    refine ⟨rfl, ?_, rfl⟩
    show results = results ++ List.map (fun p => injectPhoto p.1 p.2.1) ([] : List (Candidate × CandidateResult × Bool))
    rw [List.map_nil, List.append_nil]
  | cons p rest ih =>
    intro results
    obtain ⟨c, r0, ok⟩ := p
    obtain ⟨ih1, ih2, ih3⟩ := ih (results ++ [injectPhoto c r0])
    refine ⟨?_, ?_, ?_⟩
    · show injectPhoto c r0
          :: resultDataOf (emitBatch total rest (results ++ [injectPhoto c r0])).1 = _
      rw [ih1, List.map_cons]
    · show (emitBatch total rest (results ++ [injectPhoto c r0])).2 = _
      rw [ih2, List.map_cons, List.append_assoc]
      rfl
    · show doneResultsOf (emitBatch total rest (results ++ [injectPhoto c r0])).1 = []
      exact ih3

theorem streamGo_spec (worker : Candidate → CandidateResult × Bool) (total : ℕ) :
    ∀ (bs : List (List Candidate)) (completed : ℕ) (results : List CandidateResult),
      resultDataOf (streamGo total worker completed results bs)
          = bs.flatten.map (fun c => injectPhoto c (worker c).1) ∧
        doneResultsOf (streamGo total worker completed results bs)
          = results ++ bs.flatten.map (fun c => injectPhoto c (worker c).1) := by
  intro bs
  induction bs with
  | nil =>
    intro completed results
    constructor
    · rfl
    · simp [streamGo, doneResultsOf]
  | cons batch rest ih =>
    intro completed results
    have hpairs :
        (batch.map (fun c => (c, worker c))).map (fun p => injectPhoto p.1 p.2.1)
          = batch.map (fun c => injectPhoto c (worker c).1) := by
      rw [List.map_map]
      rfl
    obtain ⟨e1, e2, e3⟩ := emitBatch_spec total (batch.map (fun c => (c, worker c))) results
    obtain ⟨ih1, ih2⟩ := ih (completed + batch.length)
      (emitBatch total (batch.map (fun c => (c, worker c))) results).2
    constructor
    · simp only [streamGo, resultDataOf, List.filterMap_append]
      rw [show List.filterMap _ (progressEvents total completed batch) = []
            from resultDataOf_progress total completed batch,
          show List.filterMap _ (emitBatch total (batch.map (fun c => (c, worker c))) results).1
            = (batch.map (fun c => (c, worker c))).map (fun p => injectPhoto p.1 p.2.1) from e1,
          show List.filterMap _ (streamGo total worker (completed + batch.length)
              (emitBatch total (batch.map (fun c => (c, worker c))) results).2 rest)
            = rest.flatten.map (fun c => injectPhoto c (worker c).1) from ih1,
          hpairs]
      simp
    · simp only [streamGo, doneResultsOf, List.filterMap_append, List.flatten_append]
      rw [show (List.filterMap _ (progressEvents total completed batch)).flatten = []
            from doneResultsOf_progress total completed batch]
      rw [show (List.filterMap _ (emitBatch total (batch.map (fun c => (c, worker c))) results).1).flatten = []
            from e3]
      rw [show (List.filterMap _ (streamGo total worker (completed + batch.length)
              (emitBatch total (batch.map (fun c => (c, worker c))) results).2 rest)).flatten
            = (emitBatch total (batch.map (fun c => (c, worker c))) results).2
                ++ rest.flatten.map (fun c => injectPhoto c (worker c).1) from ih2]
      rw [e2, hpairs]
      simp

theorem chunksOf_flatten (n : ℕ) (hn : 0 < n) :
    ∀ (fuel : ℕ) (l : List α), l.length ≤ fuel → (chunksOf n fuel l).flatten = l := by
  intro fuel
  induction fuel with
  | zero =>
    intro l hl
    rw [List.length_eq_zero.mp (Nat.le_zero.mp hl)]
    rfl
  | succ fuel ih =>
    intro l hl
    cases l with
    | nil => rfl
    | cons x xs =>
      have hdrop : ((x :: xs).drop n).length ≤ fuel := by
        simp only [List.length_drop, List.length_cons] at *
        omega
      simp only [chunksOf, List.flatten_cons]
      rw [ih ((x :: xs).drop n) hdrop, List.take_append_drop]

theorem event_stream_spec (cands : List Candidate) (worker : Candidate → CandidateResult × Bool) :
    resultDataOf (event_stream cands worker)
        = cands.map (fun c => injectPhoto c (worker c).1) ∧
      doneResultsOf (event_stream cands worker)
        = cands.map (fun c => injectPhoto c (worker c).1) := by
  obtain ⟨h1, h2⟩ := streamGo_spec worker cands.length
    (chunksOf BATCH_SIZE cands.length cands) 0 []
  have hflat : (chunksOf BATCH_SIZE cands.length cands).flatten = cands :=
    chunksOf_flatten BATCH_SIZE (by norm_num [BATCH_SIZE]) cands.length cands le_rfl
  rw [event_stream]
  constructor
  · rw [h1, hflat]
  · rw [h2, hflat]
    simp

theorem geminiBlock_openaiCalls (gk : String) (gB : ℕ → CallOutcome) (r1 : ProviderRun) :
    (geminiBlock gk gB r1).openaiCalls = r1.calls := by
  simp only [geminiBlock]
  split_ifs with h
  · split <;> rfl
  · rfl

theorem scoreOne_status (resume : String) (ok gk : String) (env : String → ScoreEnv)
    (jd : String) :
    (scoreOne resume ok gk env jd).status = "GPT" ∨
    (scoreOne resume ok gk env jd).status = "Gemini" ∨
    (scoreOne resume ok gk env jd).status = "Keyword" :=
  score_resume_status resume jd (env jd).sim ok gk (env jd).openaiOutcome (env jd).geminiOutcome

/-! ## The claims -/

/-- C1: for every resume text and JD text, when the LLM Judge returns a
result with overall score `L` and the Keyword Matcher returns score `K`, the
Resume Scorer's ATS Score equals `round(0.7*L + 0.3*K, 1)` exactly, with
Status set to the provider name; when the LLM Judge returns no result, the
ATS Score equals `K` exactly and Status is `"Keyword"`. -/
theorem C1_resume_scorer_blend (resume jd : String) (so : Option ℚ) (ok gk : String)
    (oB gB : ℕ → CallOutcome) (r : LLMJson) (p : String) (L : ℚ) :
    ((llm_score ok gk oB gB).result = some (r, p) → r.overall_score = some L →
      (score_resume resume jd so ok gk oB gB).ats
          = pyRound1 ((7/10) * L + (3/10) * (keyword_score resume jd so).score) ∧
        (score_resume resume jd so ok gk oB gB).status = p) ∧
    ((llm_score ok gk oB gB).result = none →
      (score_resume resume jd so ok gk oB gB).ats = (keyword_score resume jd so).score ∧
      (score_resume resume jd so ok gk oB gB).status = "Keyword") := by
  constructor
  · intro h hL
    constructor
    · simp only [score_resume, h, hL, Option.getD_some, LLM_WEIGHT, KEYWORD_WEIGHT]
      congr 1
      ring
    · simp [score_resume, h]
  · intro h
    exact ⟨by simp [score_resume, h], by simp [score_resume, h]⟩

theorem C1_resume_scorer_blend_witness :
    (score_resume "Python" "Python SQL" (some (1/2)) "k" "" exOkB exFailB).ats = 71 ∧
    (score_resume "Python" "Python SQL" (some (1/2)) "k" "" exOkB exFailB).status = "GPT" ∧
    (score_resume "Python" "Python SQL" (some (1/2)) "" "" exFailB exFailB).ats
        = (keyword_score "Python" "Python SQL" (some (1/2))).score ∧
    (score_resume "Python" "Python SQL" (some (1/2)) "" "" exFailB exFailB).status
        = "Keyword" := by
  obtain ⟨h1, h2⟩ := (C1_resume_scorer_blend "Python" "Python SQL" (some (1/2)) "k" ""
    exOkB exFailB exJson "GPT" 80).1 (by decide) (by decide)
  obtain ⟨h3, h4⟩ := (C1_resume_scorer_blend "Python" "Python SQL" (some (1/2)) "" ""
    exFailB exFailB exJson "GPT" 80).2 (by decide)
  refine ⟨?_, h2, h3, h4⟩
  rw [h1]
  decide

/-- C2 counterexample: the claim asserts the ATS Score lies in `[0,100]` for
arbitrary LLM-returned overall scores, but `score_resume` blends the LLM
score without clamping: an LLM reply with overall score 200 yields ATS Score
140. -/
theorem C2_invariants_counterexample :
    (score_resume "" "" none "k" "" exHugeB exFailB).ats = 140 ∧
    ¬ (score_resume "" "" none "k" "" exHugeB exFailB).ats ≤ 100 := by decide

/-- C2 (amended): every record produced by the Resume Scorer has
Recommendation in `{Yes, No, Maybe}` and a non-empty Status, and — provided
the TF-IDF similarity lies in `[0,1]` and the LLM-returned overall score
(when present) lies in `[0,100]`, as the prompt demands — the ATS Score lies
in `[0,100]`. -/
theorem C2_invariants_amended (resume jd : String) (so : Option ℚ) (ok gk : String)
    (oB gB : ℕ → CallOutcome)
    (hsim : ∀ s, so = some s → 0 ≤ s ∧ s ≤ 1)
    (hL : ∀ r p L, (llm_score ok gk oB gB).result = some (r, p) →
      r.overall_score = some L → 0 ≤ L ∧ L ≤ 100) :
    ((score_resume resume jd so ok gk oB gB).recommendation = "Yes" ∨
      (score_resume resume jd so ok gk oB gB).recommendation = "No" ∨
      (score_resume resume jd so ok gk oB gB).recommendation = "Maybe") ∧
    (0 ≤ (score_resume resume jd so ok gk oB gB).ats ∧
      (score_resume resume jd so ok gk oB gB).ats ≤ 100) ∧
    (score_resume resume jd so ok gk oB gB).status ≠ "" := by
  refine ⟨score_resume_recommendation resume jd so ok gk oB gB, ?_, ?_⟩
  · obtain ⟨hk0, hk1⟩ := keyword_score_bounds resume jd so hsim
    rcases hres : (llm_score ok gk oB gB).result with _ | ⟨r, p⟩
    · constructor
      · simpa [score_resume, hres] using hk0
      · simpa [score_resume, hres] using hk1
    · have hLb : 0 ≤ r.overall_score.getD 0 ∧ r.overall_score.getD 0 ≤ 100 := by
        cases hos : r.overall_score with
        | none => simp
        | some L => simpa [hos] using hL r p L hres hos
      simp only [score_resume, hres, LLM_WEIGHT, KEYWORD_WEIGHT]
      constructor
      · apply pyRound1_nonneg
        nlinarith [hLb.1, hLb.2, hk0, hk1]
      · apply pyRound1_le_hundred
        nlinarith [hLb.1, hLb.2, hk0, hk1]
  · rcases score_resume_status resume jd so ok gk oB gB with h | h | h <;> rw [h] <;> decide

theorem C2_invariants_amended_witness :
    ((score_resume "Python" "Python SQL" (some (1/2)) "k" "" exOkB exFailB).recommendation = "Yes" ∨
      (score_resume "Python" "Python SQL" (some (1/2)) "k" "" exOkB exFailB).recommendation = "No" ∨
      (score_resume "Python" "Python SQL" (some (1/2)) "k" "" exOkB exFailB).recommendation = "Maybe") ∧
    (0 ≤ (score_resume "Python" "Python SQL" (some (1/2)) "k" "" exOkB exFailB).ats ∧
      (score_resume "Python" "Python SQL" (some (1/2)) "k" "" exOkB exFailB).ats ≤ 100) ∧
    (score_resume "Python" "Python SQL" (some (1/2)) "k" "" exOkB exFailB).status ≠ "" := by
  apply C2_invariants_amended
  · intro s hs
    cases hs
    exact ⟨by decide, by decide⟩
  · intro r p L h hL2
    have he : (llm_score "k" "" exOkB exFailB).result = some (exJson, "GPT") := by decide
    rw [he] at h
    injection h with h7
    obtain ⟨h8, -⟩ := Prod.mk.injEq .. |>.mp h7
    rw [← h8] at hL2
    rw [show exJson.overall_score = some 80 from rfl] at hL2
    injection hL2 with h10
    rw [← h10]
    exact ⟨by decide, by decide⟩

/-- C3: if the primary provider is configured and every call to it raises a
retryable error, the LLM Judge attempts it exactly `MAX_RETRIES + 1 = 3`
times before trying the fallback; if the fallback (when configured) also
exhausts its 3 attempts, or neither provider is configured, the result is
absent. -/
theorem C3_llm_failover (ok gk : String) (oB gB : ℕ → CallOutcome)
    (hok : ok ≠ "")
    (hoB : ∀ n, ∃ m, oB n = .failure m ∧ openaiRetryable (strLower m) = true) :
    MAX_RETRIES + 1 = 3 ∧
    (llm_score ok gk oB gB).openaiCalls = MAX_RETRIES + 1 ∧
    (gk ≠ "" → (∀ n, ∃ m, gB n = .failure m ∧ geminiRetryable (strLower m) = true) →
      (llm_score ok gk oB gB).geminiCalls = MAX_RETRIES + 1 ∧
      (llm_score ok gk oB gB).result = none) ∧
    (gk = "" → (llm_score ok gk oB gB).result = none ∧
      (llm_score ok gk oB gB).geminiCalls = 0) ∧
    (∀ (k1 k2 : String) (b1 b2 : ℕ → CallOutcome), k1 = "" → k2 = "" →
      (llm_score k1 k2 b1 b2).result = none ∧ (llm_score k1 k2 b1 b2).openaiCalls = 0 ∧
        (llm_score k1 k2 b1 b2).geminiCalls = 0) := by
  have ho := runProvider_exhaust openaiRetryable oB hoB
  have hls : llm_score ok gk oB gB
      = geminiBlock gk gB { result := none, calls := 3, waits := [3/2, 3] } := by
    unfold llm_score
    rw [if_pos hok, ho]
  refine ⟨rfl, ?_, ?_, ?_, ?_⟩
  · rw [hls, geminiBlock_openaiCalls]
    rfl
  · intro hgk hgB
    have hg := runProvider_exhaust geminiRetryable gB hgB
    rw [hls]
    unfold geminiBlock
    rw [if_pos hgk, hg]
    exact ⟨rfl, rfl⟩
  · intro hgk
    rw [hls]
    unfold geminiBlock
    rw [if_neg (by simp [hgk])]
    exact ⟨rfl, rfl⟩
  · intro k1 k2 b1 b2 h1 h2
    subst h1
    subst h2
    unfold llm_score
    rw [if_neg (by simp)]
    unfold geminiBlock
    rw [if_neg (by simp)]
    exact ⟨rfl, rfl, rfl⟩

theorem C3_llm_failover_witness :
    (llm_score "k" "g" exFailB exFailB).openaiCalls = 3 ∧
    (llm_score "k" "g" exFailB exFailB).geminiCalls = 3 ∧
    (llm_score "k" "g" exFailB exFailB).result = none ∧
    (llm_score "" "" exFailB exFailB).result = none := by
  obtain ⟨-, h2, h3, -, h5⟩ := C3_llm_failover "k" "g" exFailB exFailB (by decide)
    (fun n => ⟨"Rate limit: 429", rfl, by decide⟩)
  obtain ⟨h6, h7⟩ := h3 (by decide) (fun n => ⟨"Rate limit: 429", rfl, by decide⟩)
  exact ⟨h2, h6, h7, (h5 "" "" exFailB exFailB rfl rfl).1⟩

/-- C4 counterexample: the claim says each provider classifies an error as
retryable exactly when its message indicates rate-limiting, timeout, quota,
or overload; but the OpenAI branch ignores quota messages and the Gemini
branch ignores timeout messages. -/
theorem C4_retryable_counterexample :
    specRetryable "insufficient quota" = true ∧
    openaiRetryable "insufficient quota" = false ∧
    specRetryable "connection timeout" = true ∧
    geminiRetryable "connection timeout" = false := by decide

/-- C4 (amended): the OpenAI branch treats an error as retryable exactly when
its lowercased message contains `"rate"`, `"429"`, `"timeout"` or
`"overloaded"`, the Gemini branch exactly when it contains `"rate"`, `"429"`,
`"quota"` or `"resource"`; a retryable error before the last attempt leads to
a retry after a `(attemptIndex+1)*1.5`-second wait, while a non-retryable
error, or exhaustion of retries, abandons that provider and proceeds to the
next. -/
theorem C4_retry_behavior_amended (m : String) (retry : String → Bool)
    (B : ℕ → CallOutcome) (i : ℕ) (rest : List ℕ) (e : String) (r : LLMJson)
    (ok gk : String) (oB gB : ℕ → CallOutcome) :
    (openaiRetryable m
        = (substrB "rate" m || substrB "429" m || substrB "timeout" m ||
            substrB "overloaded" m)) ∧
    (geminiRetryable m
        = (substrB "rate" m || substrB "429" m || substrB "quota" m ||
            substrB "resource" m)) ∧
    (B i = .success r →
      providerLoop retry B (i :: rest) = { result := some r, calls := 1, waits := [] }) ∧
    (B i = .failure e → retry (strLower e) = true → i < MAX_RETRIES →
      providerLoop retry B (i :: rest)
        = { result := (providerLoop retry B rest).result,
            calls := (providerLoop retry B rest).calls + 1,
            waits := ((i : ℚ) + 1) * (3/2) :: (providerLoop retry B rest).waits }) ∧
    (B i = .failure e → (retry (strLower e) = false ∨ MAX_RETRIES ≤ i) →
      providerLoop retry B (i :: rest) = { result := none, calls := 1, waits := [] }) ∧
    (ok ≠ "" → (runProvider openaiRetryable oB).result = none →
      llm_score ok gk oB gB = geminiBlock gk gB (runProvider openaiRetryable oB)) := by
  refine ⟨rfl, rfl, ?_, ?_, ?_, ?_⟩
  · intro h
    simp [providerLoop, h]
  · intro h hr hlt
    simp [providerLoop, h, hr, hlt]
  · intro h hcase
    rcases hcase with hf | hle
    · simp [providerLoop, h, hf]
    · simp [providerLoop, h, Nat.not_lt.mpr hle]
  · intro hok hnone
    unfold llm_score
    rw [if_pos hok]
    show (match (runProvider openaiRetryable oB).result with
      | some r => ({ result := some (r, "GPT"),
                     openaiCalls := (runProvider openaiRetryable oB).calls,
                     openaiWaits := (runProvider openaiRetryable oB).waits,
                     geminiCalls := 0, geminiWaits := [] } : LLMTrace)
      | none => geminiBlock gk gB (runProvider openaiRetryable oB)) = _
    rw [hnone]

theorem C4_retry_behavior_amended_witness :
    (openaiRetryable "quota"
        = (substrB "rate" "quota" || substrB "429" "quota" || substrB "timeout" "quota" ||
            substrB "overloaded" "quota")) ∧
    (providerLoop openaiRetryable exFailB (0 :: [1, 2])
        = { result := (providerLoop openaiRetryable exFailB [1, 2]).result,
            calls := (providerLoop openaiRetryable exFailB [1, 2]).calls + 1,
            waits := ((0 : ℚ) + 1) * (3/2)
              :: (providerLoop openaiRetryable exFailB [1, 2]).waits }) ∧
    (providerLoop openaiRetryable exNonRetryB (0 :: [1, 2])
        = { result := none, calls := 1, waits := [] }) ∧
    (llm_score "k" "g" exFailB exFailB
        = geminiBlock "g" exFailB (runProvider openaiRetryable exFailB)) := by
  obtain ⟨h1, -, -, h4, -, h6⟩ := C4_retry_behavior_amended "quota" openaiRetryable exFailB
    0 [1, 2] "Rate limit: 429" exJson "k" "g" exFailB exFailB
  obtain ⟨-, -, -, -, h5b, -⟩ := C4_retry_behavior_amended "quota" openaiRetryable exNonRetryB
    0 [1, 2] "Invalid API key" exJson "k" "g" exFailB exFailB
  exact ⟨h1, h4 rfl (by decide) (by decide), h5b rfl (Or.inl (by decide)),
    h6 (by decide) (by decide)⟩

/-- C5 counterexample: the claim says matched ∪ missing covers exactly the
JD's extracted keyword set when the resume keywords are a subset; with an
empty resume (keywords `∅`, a subset of anything) and a JD with 11 extracted
keywords, the missing list is truncated to 10 and the union falls short. -/
theorem C5_keyword_coverage_counterexample :
    extract_keywords "" ⊆ extract_keywords exJD11 ∧
    ((keyword_score "" exJD11 none).matched_keywords
        ++ (keyword_score "" exJD11 none).missing_keywords).toFinset
      ≠ extract_keywords exJD11 := by decide

/-- C5 (amended): for every resume/JD pair the Keyword Matcher's score is in
`[0,100]` (given the TF-IDF similarity lies in `[0,1]`) and the
missing-keywords list has length at most 10; the union of matched and
missing keywords covers exactly the JD's extracted keyword set whenever at
most 10 JD keywords are missing from the resume. -/
theorem C5_keyword_matcher_amended (resume jd : String) (so : Option ℚ)
    (hsim : ∀ s, so = some s → 0 ≤ s ∧ s ≤ 1)
    (hmiss : (extract_keywords jd \ extract_keywords resume).card ≤ 10) :
    (0 ≤ (keyword_score resume jd so).score ∧ (keyword_score resume jd so).score ≤ 100) ∧
    ((keyword_score resume jd so).matched_keywords
        ++ (keyword_score resume jd so).missing_keywords).toFinset = extract_keywords jd ∧
    (keyword_score resume jd so).missing_keywords.length ≤ 10 := by
  refine ⟨keyword_score_bounds resume jd so hsim, ?_, ?_⟩
  · have hm : (keyword_score resume jd so).matched_keywords
        = sortedOf (extract_keywords jd ∩ extract_keywords resume) := rfl
    have hmi : (keyword_score resume jd so).missing_keywords
        = (sortedOf (extract_keywords jd \ extract_keywords resume)).take 10 := rfl
    have htake : (sortedOf (extract_keywords jd \ extract_keywords resume)).take 10
        = sortedOf (extract_keywords jd \ extract_keywords resume) := by
      apply List.take_of_length_le
      rw [length_sortedOf]
      exact hmiss
    rw [hm, hmi, htake, List.toFinset_append, toFinset_sortedOf, toFinset_sortedOf,
      Finset.union_comm]
    exact Finset.sdiff_union_inter _ _
  · have hmi : (keyword_score resume jd so).missing_keywords
        = (sortedOf (extract_keywords jd \ extract_keywords resume)).take 10 := rfl
    rw [hmi, List.length_take]
    exact min_le_left _ _

theorem C5_keyword_matcher_amended_witness :
    (0 ≤ (keyword_score "Python SQL" "Python Docker" (some (1/2))).score ∧
      (keyword_score "Python SQL" "Python Docker" (some (1/2))).score ≤ 100) ∧
    ((keyword_score "Python SQL" "Python Docker" (some (1/2))).matched_keywords
        ++ (keyword_score "Python SQL" "Python Docker" (some (1/2))).missing_keywords).toFinset
      = extract_keywords "Python Docker" ∧
    (keyword_score "Python SQL" "Python Docker" (some (1/2))).missing_keywords.length ≤ 10 := by
  apply C5_keyword_matcher_amended
  · intro s hs
    cases hs
    exact ⟨by decide, by decide⟩
  · decide

/-- C6: for every resume/JD pair the Keyword Matcher computes the match
ratio as the size of the keyword intersection over the JD keyword count (0
when there are no JD keywords), returns
`score = round((matchRatio*0.6 + similarity*0.4)*100, 1)`, lists the missing
keywords as the JD-minus-resume set lexicographically sorted and truncated
to 10, and the TF-IDF similarity defaults to 0 on the numerical-failure
outcome. -/
theorem C6_keyword_formula (resume jd : String) (so : Option ℚ) :
    (keyword_score resume jd so).score
        = pyRound1 (((if (extract_keywords jd).card = 0 then (0 : ℚ)
              else ((extract_keywords jd ∩ extract_keywords resume).card : ℚ)
                  / ((extract_keywords jd).card : ℚ)) * (6/10)
            + tfidf_similarity so * (4/10)) * 100) ∧
    (keyword_score resume jd so).matched_keywords
        = sortedOf (extract_keywords jd ∩ extract_keywords resume) ∧
    (keyword_score resume jd so).missing_keywords
        = (sortedOf (extract_keywords jd \ extract_keywords resume)).take 10 ∧
    tfidf_similarity none = 0 :=
  ⟨rfl, rfl, rfl, rfl⟩

/-- C7: with multiple job descriptions and nonnegative ATS scores, the
Multi-JD Resolver scores every JD (witnessed by the winner dominating every
JD's score) and returns the record with the strictly highest ATS Score,
keeping the first seen on ties, with the Matched JD label set to that
winner's target role. -/
theorem C7_multi_jd_best (resume : String) (jds : List String) (ok gk : String)
    (env : String → ScoreEnv)
    (hlen : 2 ≤ jds.length)
    (hpos : ∀ jd ∈ jds, 0 ≤ (scoreOne resume ok gk env jd).ats) :
    ∃ i, ∃ hi : i < jds.length,
      score_against_all_jds resume jds ok gk env
          = some { data := scoreOne resume ok gk env (jds.get ⟨i, hi⟩),
                   matchedJD := (scoreOne resume ok gk env (jds.get ⟨i, hi⟩)).targetRole } ∧
      (∀ j, ∀ hj : j < jds.length,
        (scoreOne resume ok gk env (jds.get ⟨j, hj⟩)).ats
          ≤ (scoreOne resume ok gk env (jds.get ⟨i, hi⟩)).ats) ∧
      (∀ j, ∀ hj : j < jds.length, j < i →
        (scoreOne resume ok gk env (jds.get ⟨j, hj⟩)).ats
          < (scoreOne resume ok gk env (jds.get ⟨i, hi⟩)).ats) := by
  match jds, hlen with
  | a :: b :: rest, _ =>
    have hlenmap : ((a :: b :: rest).map (scoreOne resume ok gk env)).length
        = (a :: b :: rest).length := List.length_map _ _
    have hget : ∀ j (hj : j < ((a :: b :: rest).map (scoreOne resume ok gk env)).length),
        ((a :: b :: rest).map (scoreOne resume ok gk env)).get ⟨j, hj⟩
          = scoreOne resume ok gk env ((a :: b :: rest).get ⟨j, by omega⟩) := by
      intro j hj
      simp only [List.get_eq_getElem, List.getElem_map]
    rcases bestFold_spec ((a :: b :: rest).map (scoreOne resume ok gk env)) (-1) none with
      ⟨hall, -⟩ | ⟨i, hi, h1, -, -, h4, h5⟩
    · exfalso
      have hmem : scoreOne resume ok gk env a ∈ (a :: b :: rest).map (scoreOne resume ok gk env) := by
        simp
      have hle := hall _ hmem
      have hge := hpos a (by simp)
      linarith
    · refine ⟨i, by omega, ?_, ?_, ?_⟩
      · rw [score_against_all_jds_multi, h1, hget i hi]
      · intro j hj
        have := h4 j (by omega)
        rw [hget j (by omega), hget i hi] at this
        exact this
      · intro j hj hlt
        have := h5 j (by omega) hlt
        rw [hget j (by omega), hget i hi] at this
        exact this

theorem C7_multi_jd_best_witness :
    (scoreOne "" "k" "" exEnv3 "j1").ats = 40 ∧
    (scoreOne "" "k" "" exEnv3 "j2").ats = 85 ∧
    (scoreOne "" "k" "" exEnv3 "j3").ats = 60 ∧
    (score_against_all_jds "" ["j1", "j2", "j3"] "k" "" exEnv3).map
        (fun m => (m.data.ats, m.matchedJD)) = some (85, "Role j2") := by
  have h := C7_multi_jd_best "" ["j1", "j2", "j3"] "k" "" exEnv3 (by decide) (by decide)
  exact ⟨by decide, by decide, by decide, by decide⟩

/-- C8 counterexample: the claim says result notifications are emitted in the
batch's completion order; with worker B completing before worker A
(`exCt B < exCt A`), the claimed emission order is `[B, A]`, but
`event_stream` gathers the batch and emits in input order `[A, B]` — the
completion instants cannot influence the emitted order. -/
theorem C8_order_counterexample :
    (resultDataOf (event_stream [exCandA, exCandB] exWorkerF)).map CandidateResult.name
        = ["A", "B"] ∧
    (completionSort exCt [exCandA, exCandB]).map Candidate.name = ["B", "A"] ∧
    (["A", "B"] : List String) ≠ ["B", "A"] := by decide

/-- C8 (amended): for every batch, the `"result"` notifications are emitted
only after the whole batch's gather completes, in the batch's input order —
so across the stream the result payloads follow the candidates' input
order — and the final aggregate of the `"done"` event lists the records in
exactly the emission order (hence also input order), not completion order. -/
theorem C8_order_amended (cands : List Candidate)
    (worker : Candidate → CandidateResult × Bool) :
    resultDataOf (event_stream cands worker)
        = cands.map (fun c => injectPhoto c (worker c).1) ∧
    doneResultsOf (event_stream cands worker) = resultDataOf (event_stream cands worker) := by
  obtain ⟨h1, h2⟩ := event_stream_spec cands worker
  exact ⟨h1, by rw [h1, h2]⟩

/-- C9: any per-candidate failure is caught at the worker boundary and
becomes a record with ATS Score 0 and Status `"Failed"` without aborting the
batch; the final aggregate holds exactly one record per input candidate, and
successfully acquired candidates never carry the `"Failed"` status. -/
theorem C9_batch_isolation (cands : List Candidate) (acq : Candidate → Acquisition)
    (jds : List String) (ok gk : String) (env : String → ScoreEnv)
    (hjds : jds ≠ []) :
    (doneResultsOf (event_stream cands
        (fun c => process_one_candidate c (acq c) jds ok gk env))).length = cands.length ∧
    (∀ i, ∀ hi : i < cands.length,
      ∃ r, (doneResultsOf (event_stream cands
            (fun c => process_one_candidate c (acq c) jds ok gk env)))[i]? = some r ∧
        ((acq (cands.get ⟨i, hi⟩) = .downloadFail ∨ acq (cands.get ⟨i, hi⟩) = .extractFail) →
          r.ats = 0 ∧ r.status = "Failed" ∧ r.phone = "Error" ∧ r.email = "Error" ∧
            r.missingReq = "Error" ∧ r.jdSummary = "Error" ∧ r.targetRole = "Error" ∧
            r.bestFitRole = "Error" ∧ r.matchedJD = "Error" ∧
            (process_one_candidate (cands.get ⟨i, hi⟩) (acq (cands.get ⟨i, hi⟩))
              jds ok gk env).2 = false) ∧
        (∀ t, acq (cands.get ⟨i, hi⟩) = .ok t →
          r.status ≠ "Failed" ∧
            (process_one_candidate (cands.get ⟨i, hi⟩) (acq (cands.get ⟨i, hi⟩))
              jds ok gk env).2 = true)) := by
  obtain ⟨-, h2⟩ := event_stream_spec cands
    (fun c => process_one_candidate c (acq c) jds ok gk env)
  constructor
  · rw [h2, List.length_map]
  · intro i hi
    refine ⟨injectPhoto (cands.get ⟨i, hi⟩)
      ((process_one_candidate (cands.get ⟨i, hi⟩) (acq (cands.get ⟨i, hi⟩)) jds ok gk env).1),
      ?_, ?_, ?_⟩
    · rw [h2, List.getElem?_map, List.get_eq_getElem, List.getElem?_eq_getElem hi]
      rfl
    · intro hfail
      rcases hfail with hf | hf <;>
      · rw [hf]
        unfold injectPhoto
        split_ifs <;> exact ⟨rfl, rfl, rfl, rfl, rfl, rfl, rfl, rfl, rfl, rfl⟩
    · intro t ht
      rw [injectPhoto_status, ht]
      obtain ⟨m, hm⟩ := score_against_all_jds_isSome t jds ok gk env hjds
      have hred : process_one_candidate (cands.get ⟨i, hi⟩) (.ok t) jds ok gk env
          = (successRecord (cands.get ⟨i, hi⟩).name (cands.get ⟨i, hi⟩).url m, true) := by
        show (match score_against_all_jds t jds ok gk env with
          | some m0 => (successRecord (cands.get ⟨i, hi⟩).name (cands.get ⟨i, hi⟩).url m0, true)
          | none => (failedRecord (cands.get ⟨i, hi⟩).name (cands.get ⟨i, hi⟩).url
              "list index out of range", false)) = _
        rw [hm]
      constructor
      · rw [hred]
        obtain ⟨jd, -, hdata⟩ := score_against_all_jds_data t jds ok gk env m hm
        show m.data.status ≠ "Failed"
        rw [hdata]
        rcases scoreOne_status t ok gk env jd with hs | hs | hs <;> rw [hs] <;> decide
      · rw [hred]

theorem C9_batch_isolation_witness :
    (doneResultsOf (event_stream exCands5
        (fun c => process_one_candidate c (exAcq5 c) ["J"] "" "" exEnvK))).length = 5 ∧
    (doneResultsOf (event_stream exCands5
        (fun c => process_one_candidate c (exAcq5 c) ["J"] "" "" exEnvK))).map
        CandidateResult.status = ["Keyword", "Keyword", "Failed", "Keyword", "Keyword"] ∧
    ((doneResultsOf (event_stream exCands5
        (fun c => process_one_candidate c (exAcq5 c) ["J"] "" "" exEnvK)))[2]?).map
        CandidateResult.ats = some 0 := by
  have h := C9_batch_isolation exCands5 exAcq5 ["J"] "" "" exEnvK (by decide)
  exact ⟨by decide, by decide, by decide⟩

/-- C10: when the spreadsheet supplies a non-empty photo value other than the
literals `"nan"` and `"None"` for a candidate, the emitted record equals the
worker's record with only the Photo Link field replaced by the spreadsheet
value (overriding LLM-extracted links and the `"Error"` sentinel alike), and
the aggregated `"done"` record for that candidate is the same. -/
theorem C10_photo_override (cands : List Candidate)
    (worker : Candidate → CandidateResult × Bool) (i : ℕ) (hi : i < cands.length)
    (hp1 : (cands.get ⟨i, hi⟩).photo ≠ "")
    (hp2 : (cands.get ⟨i, hi⟩).photo ≠ "nan")
    (hp3 : (cands.get ⟨i, hi⟩).photo ≠ "None") :
    (resultDataOf (event_stream cands worker))[i]?
        = some { (worker (cands.get ⟨i, hi⟩)).1 with photoLink := (cands.get ⟨i, hi⟩).photo } ∧
    (doneResultsOf (event_stream cands worker))[i]?
        = (resultDataOf (event_stream cands worker))[i]? := by
  obtain ⟨h1, h2⟩ := event_stream_spec cands worker
  have hinj : injectPhoto (cands.get ⟨i, hi⟩) ((worker (cands.get ⟨i, hi⟩)).1)
      = { (worker (cands.get ⟨i, hi⟩)).1 with photoLink := (cands.get ⟨i, hi⟩).photo } := by
    unfold injectPhoto
    rw [if_pos ⟨hp1, hp2, hp3⟩]
  constructor
  · rw [h1, List.getElem?_map, List.get_eq_getElem, List.getElem?_eq_getElem hi]
    rw [List.get_eq_getElem] at hinj
    rw [Option.map_some', hinj]
  · rw [h1, h2]

theorem C10_photo_override_witness :
    ((resultDataOf (event_stream [{ name := "A", url := "u", photo := "http://p" }] exWorkerF))[0]?).map
        CandidateResult.photoLink = some "http://p" ∧
    ((resultDataOf (event_stream [{ name := "A", url := "u", photo := "http://p" }] exWorkerF))[0]?).map
        CandidateResult.status = some "Failed" := by
  have h := (C10_photo_override [{ name := "A", url := "u", photo := "http://p" }] exWorkerF
    0 (by decide) (by decide) (by decide) (by decide)).1
  exact ⟨by decide, by decide⟩

end ATS
